import Mathlib

/-!
Verification of the LINGOFLOW transcript-translation core.

Shallow embedding of the on-demand transcript translation and caching
subsystem of `server/routes.ts` and `server/storage.ts`:

* `normalizeLanguageCode` — the language-code normalizer;
* `translateText` — the translation-provider adapter (degrades to the
  original text on any provider failure);
* the `GET /api/transcribe/:id/translation/:language` handler
  (`getTranslation`), including its Hindi-script source-language
  detection, cache read/invalidate/write, hardcoded Hindi-to-English
  mock path, per-line timestamp-preserving translation and the final
  Devanagari safeguard;
* the `POST /api/transcribe` background orchestration
  (`transcriptionTrace`);
* `DatabaseStorage.updateTranscriptionStatus` and
  `DatabaseStorage.updatePdfTranslationStatus` together with the
  `POST /api/translate-pdf` background checkpoints.

JavaScript strings are modelled by Lean `String` (a wrapper around
`List Char`), JavaScript numbers that hold integers by `Nat`, nullable
or optional fields by `Option`, and provider calls by explicit result
functions passed as parameters.
-/

namespace LingoFlow

/-! ## JavaScript string primitives -/

/-- JavaScript `\s` for the characters that occur in this code base
(ASCII whitespace).  Used by `String.prototype.trim`, the `\s+` of the
timestamp regex and the blank-line filter. -/
def isJsWhitespace (c : Char) : Bool :=
  c = ' ' || c = '\t' || c = '\n' || c = '\r' || c = '\x0b' || c = '\x0c'

/-- JavaScript truthiness of a string after `trim()`: a string is blank
iff every character is whitespace (so `!s.trim()` / `s.trim().length === 0`). -/
def isBlankString (s : String) : Bool :=
  s.data.all isJsWhitespace

/-- The Devanagari test `/[ऀ-ॿ]/.test(s)` used throughout the
translation route. -/
def containsDevanagari (s : String) : Bool :=
  s.data.any (fun c => 0x900 ≤ c.toNat && c.toNat ≤ 0x97F)

/-- `String.prototype.toLowerCase` restricted to ASCII case folding,
which is all the normalizer's whitelist can distinguish. -/
def jsToLower (s : String) : String :=
  String.mk (s.data.map Char.toLower)

/-- `s.split(sep)[0]`: the prefix of `s` before the first occurrence of
`sep` (the whole string when `sep` does not occur). -/
def firstSegment (s : String) (sep : Char) : String :=
  String.mk (s.data.takeWhile (fun c => c ≠ sep))

/-- JavaScript `s.split(sep)` on a single-character separator, one list
entry per (possibly empty) segment. -/
def jsSplitChars (sep : Char) : List Char → List Char → List (List Char)
  | [], acc => [acc.reverse]
  | c :: cs, acc =>
    if c = sep then acc.reverse :: jsSplitChars sep cs []
    else jsSplitChars sep cs (c :: acc)

/-- JavaScript `s.split(sep)` for a one-character separator. -/
def jsSplit (s : String) (sep : Char) : List String :=
  (jsSplitChars sep s.data []).map String.mk

/-- JavaScript `parts.join(sep)` for a one-character separator. -/
def jsJoin (parts : List String) (sep : Char) : String :=
  String.mk (List.intercalate [sep] (parts.map String.data))

/-! ## `normalizeLanguageCode` (routes.ts, lines 49–90) -/

/-- The fixed supported-language table `languageMap` of
`normalizeLanguageCode`. -/
def languageMap : List (String × String) :=
  [("en", "en"), ("es", "es"), ("fr", "fr"), ("de", "de"), ("pt", "pt"),
   ("zh", "zh"), ("ja", "ja"), ("ko", "ko"), ("ar", "ar"), ("hi", "hi"),
   ("ru", "ru"), ("it", "it"), ("nl", "nl"), ("pl", "pl"), ("tr", "tr"),
   ("vi", "vi"), ("th", "th"), ("id", "id")]

/-- `normalizeLanguageCode` (routes.ts): empty input short-circuits to
`"en"`; otherwise lower-case, take `split('-')[0].split('_')[0]`, look
the base code up in `languageMap` and default to `"en"`. -/
def normalizeLanguageCode (code : String) : String :=
  if code = "" then "en"
  else
    let baseCode := firstSegment (firstSegment (jsToLower code) '-') '_'
    (languageMap.lookup baseCode).getD "en"

/-! ## `translateText` (routes.ts, lines 93–126) -/

/-- Outcome of one `lingoDotDev.localizeText` call: either translated
text or a thrown error (network, auth, malformed response …). -/
inductive ProviderResult where
  | ok (text : String)
  | err
  deriving DecidableEq, Repr

/-- `translateText(text, targetLanguage, sourceLanguage)` (routes.ts):
normalizes both codes, throws when the API key is missing, calls the
provider, and catches every failure by returning the original text.
The provider is passed explicitly as
`localizeText : text → sourceLocale → targetLocale → ProviderResult`. -/
def translateText (apiKeyPresent : Bool)
    (localizeText : String → String → String → ProviderResult)
    (text targetLanguage sourceLanguage : String) : String :=
  let normalizedSource := normalizeLanguageCode sourceLanguage
  let normalizedTarget := normalizeLanguageCode targetLanguage
  if !apiKeyPresent then
    -- `throw new Error("Translation API key not configured")`, caught below
    text
  else
    match localizeText text normalizedSource normalizedTarget with
    | .ok translatedText => translatedText
    | .err => text

/-! ## Timestamp parsing (routes.ts, line 968)

`line.match(/^(\d{2}:\d{2}:\d{2})\s+(.+)$/)`: an 8-character
`HH:MM:SS` prefix, at least one whitespace character, then a non-empty
remainder.  With greedy backtracking, the captured text is everything
after the longest whitespace run — unless that run extends to the end
of the line, in which case `(.+)` backtracks onto the final whitespace
character (possible only when the run has length ≥ 2). -/

/-- `\d{2}:\d{2}:\d{2}` on an 8-character candidate. -/
def isTimestampChars : List Char → Bool
  | [a, b, c, d, e, f, g, h] =>
    a.isDigit && b.isDigit && c = ':' && d.isDigit && e.isDigit &&
      f = ':' && g.isDigit && h.isDigit
  | _ => false

/-- `line.match(/^(\d{2}:\d{2}:\d{2})\s+(.+)$/)`: `some (timestamp, text)`
on a match, `none` otherwise. -/
def timestampMatch (line : String) : Option (String × String) :=
  let cs := line.data
  if cs.length < 8 then none
  else if !isTimestampChars (cs.take 8) then none
  else
    let rest := cs.drop 8
    let ws := rest.takeWhile isJsWhitespace
    let text := rest.dropWhile isJsWhitespace
    if ws.length = 0 then none
    else if text ≠ [] then some (String.mk (cs.take 8), String.mk text)
    else if 2 ≤ ws.length then
      -- `(.+)` backtracks onto the last whitespace character
      some (String.mk (cs.take 8), String.mk [ws.getLastD ' '])
    else none

/-! ## Translation cache (storage.ts `saveTranslation` / `getTranslation`,
`transcription_translations` table)

For one fixed transcription job, the cache rows are an association list
from the `language` column to `translatedText`.  `saveTranslation` is an
upsert on the unique key `(transcriptionId, language)`; the route also
issues one targeted `db.delete` for the same key. -/

/-- A cache mutation issued by the route for the current job: the key
it is issued under is the raw `language` string handed to
`storage.saveTranslation` / the `db.delete` filter. -/
inductive CacheOp where
  | put (language : String) (translatedText : String)
  | del (language : String)
  deriving DecidableEq, Repr

/-- The raw `language` string a cache mutation is keyed under. -/
def CacheOp.key : CacheOp → String
  | .put language _ => language
  | .del language => language

/-- Cache rows for one job: `language ↦ translatedText`. -/
abbrev Cache := List (String × String)

/-- `storage.getTranslation(id, language)`: select the row whose
`language` column equals the given raw string. -/
def cacheGet (cache : Cache) (language : String) : Option String :=
  (cache.find? (fun row => row.1 = language)).map Prod.snd

/-- `storage.saveTranslation(id, language, text)`: insert, or on
conflict on `(transcriptionId, language)` overwrite `translatedText`. -/
def cachePut (cache : Cache) (language text : String) : Cache :=
  if cache.any (fun row => row.1 = language) then
    cache.map (fun row => if row.1 = language then (language, text) else row)
  else
    cache ++ [(language, text)]

/-- The route's `db.delete(transcriptionTranslations).where(id ∧ language)`. -/
def cacheDel (cache : Cache) (language : String) : Cache :=
  cache.filter (fun row => row.1 ≠ language)

/-- Replay a list of cache mutations over an initial cache state. -/
def applyCacheOps (cache : Cache) : List CacheOp → Cache
  | [] => cache
  | .put language text :: ops => applyCacheOps (cachePut cache language text) ops
  | .del language :: ops => applyCacheOps (cacheDel cache language) ops

/-! ## The on-demand translation route
(`GET /api/transcribe/:id/translation/:language`, routes.ts 794–1048) -/

/-- The hardcoded mock English translation `mockHindiToEnglish`
(routes.ts, lines 786–788). -/
def mockHindiToEnglish : String :=
  "00:00:00 [Music]\n00:00:01 I am in your tomorrow. Today I am. I\n00:00:07 am in the music of your breaths."

/-- The fields of a transcription job the translation route reads. -/
structure Job where
  transcription : String
  sourceLanguage : Option String
  status : String
  deriving DecidableEq, Repr

/-- Source-language resolution (routes.ts 818–852): Devanagari content
overrides the stored value with `"hi"`; otherwise a missing, empty or
`"en"` stored value resolves to `"en"` and any other stored value is
kept. -/
def resolveSourceLanguage (job : Job) : String :=
  if containsDevanagari job.transcription then "hi"
  else
    match job.sourceLanguage with
    | none => "en"
    | some s => if s = "" || s = "en" then "en" else s

/-- The write-through correction of the stored source language
(routes.ts 833–843): performed exactly when Devanagari is detected and
the stored value is not already `"hi"`. -/
def sourceLanguageCorrection (job : Job) : Option String :=
  if containsDevanagari job.transcription && job.sourceLanguage ≠ some "hi" then
    some "hi"
  else none

/-- One per-line translation task (routes.ts 965–985): extract a
leading timestamp and translate only the text part, re-prefixing
`timestamp + " "`; lines without a timestamp are translated whole.
`localizeText` takes the line index first so that distinct concurrent
calls may behave differently. -/
def translateLine (apiKeyPresent : Bool)
    (localizeText : Nat → String → String → String → ProviderResult)
    (normalizedSource normalizedTarget : String) (i : Nat) (line : String) : String :=
  match timestampMatch line with
  | some (timestamp, text) =>
    timestamp ++ " " ++
      translateText apiKeyPresent (localizeText i) text normalizedTarget normalizedSource
  | none =>
    translateText apiKeyPresent (localizeText i) line normalizedTarget normalizedSource

/-- The non-blank transcript lines the route translates
(routes.ts 954): `originalText.split('\n').filter(line => line.trim())`. -/
def transcriptLines (originalText : String) : List String :=
  (jsSplit originalText '\n').filter (fun line => !isBlankString line)

/-- All per-line results, reassembled in original order by
`Promise.all` (routes.ts 964–986). -/
def translatedLines (apiKeyPresent : Bool)
    (localizeText : Nat → String → String → String → ProviderResult)
    (normalizedSource normalizedTarget : String) (lines : List String) : List String :=
  lines.mapIdx (translateLine apiKeyPresent localizeText normalizedSource normalizedTarget)

/-- HTTP outcome of the translation route: an error status code, or a
JSON body `{language, translatedText}`. -/
inductive RouteResponse where
  | error (statusCode : Nat)
  | ok (language : String) (translatedText : String)
  deriving DecidableEq, Repr

/-- Everything the route does that the claims observe: the HTTP
response, the cache mutations in issue order, the number of
`translateText` invocations, and the source-language write-through. -/
structure RouteOutcome where
  response : RouteResponse
  cacheOps : List CacheOp
  translateCalls : Nat
  sourceLanguageWrite : Option String
  deriving DecidableEq, Repr

/-- Fresh translation tail of the route (routes.ts 942–1038), reached
when neither the mock path, the same-language short-circuit nor a
valid cache hit answered the request.  `priorOps` carries a cache
delete already issued by the invalidation step. -/
def freshTranslation (apiKeyPresent : Bool)
    (localizeText : Nat → String → String → String → ProviderResult)
    (job : Job) (targetLanguage : String)
    (normalizedSource normalizedTarget : String)
    (priorOps : List CacheOp) : RouteOutcome :=
  if isBlankString job.transcription then
    -- 400 "Original transcription is empty"
    ⟨.error 400, priorOps, 0, sourceLanguageCorrection job⟩
  else
    let lines := transcriptLines job.transcription
    if lines.length = 0 then
      -- 400 "No transcript lines to translate"
      ⟨.error 400, priorOps, 0, sourceLanguageCorrection job⟩
    else
      let translated :=
        translatedLines apiKeyPresent localizeText normalizedSource normalizedTarget lines
      let joined := jsJoin translated '\n'
      if isBlankString joined then
        -- 500 "Translation resulted in empty text"; nothing cached
        ⟨.error 500, priorOps, lines.length, sourceLanguageCorrection job⟩
      else if normalizedTarget = "en" ∧ containsDevanagari joined then
        -- final safeguard: reject the result, cache and return the mock
        ⟨.ok targetLanguage mockHindiToEnglish,
          priorOps ++ [.put targetLanguage mockHindiToEnglish],
          lines.length, sourceLanguageCorrection job⟩
      else
        ⟨.ok targetLanguage joined,
          priorOps ++ [.put targetLanguage joined],
          lines.length, sourceLanguageCorrection job⟩

/-- The translation route
(`GET /api/transcribe/:id/translation/:language`), for a job the
requesting user owns.  `cache` holds this job's cached translations. -/
def getTranslation (apiKeyPresent : Bool)
    (localizeText : Nat → String → String → String → ProviderResult)
    (job : Job) (targetLanguage : String) (cache : Cache) : RouteOutcome :=
  if job.status ≠ "completed" then
    -- 400 "Transcription must be completed before translation"
    ⟨.error 400, [], 0, none⟩
  else
    let sourceLanguage := resolveSourceLanguage job
    let normalizedSource := normalizeLanguageCode sourceLanguage
    let normalizedTarget := normalizeLanguageCode targetLanguage
    if normalizedSource = "hi" ∧ normalizedTarget = "en" then
      -- PRIORITY 1: hardcoded mock translation, cached under "en"
      ⟨.ok "en" mockHindiToEnglish, [.put "en" mockHindiToEnglish], 0,
        sourceLanguageCorrection job⟩
    else if normalizedTarget = normalizedSource then
      -- PRIORITY 2: same language after normalization
      ⟨.ok targetLanguage job.transcription, [], 0, sourceLanguageCorrection job⟩
    else
      -- PRIORITY 3: cache lookup under the raw target-language string
      match cacheGet cache targetLanguage with
      | some cachedTranslation =>
        if normalizedTarget = "en" ∧ containsDevanagari cachedTranslation then
          -- wrong-script cache entry: delete it and recompute
          freshTranslation apiKeyPresent localizeText job targetLanguage
            normalizedSource normalizedTarget [.del targetLanguage]
        else
          ⟨.ok targetLanguage cachedTranslation, [], 0, sourceLanguageCorrection job⟩
      | none =>
        freshTranslation apiKeyPresent localizeText job targetLanguage
          normalizedSource normalizedTarget []

/-! ## Out-of-order completion of the `Promise.all` fan-out

`Promise.all(transcriptLines.map(...))` issues all per-line tasks at
once; each task finishes at some point of the event loop and its value
is stored into the slot of its own index; the joined array is read only
after every task finished.  We model a completion schedule as the list
of task indices in finishing order writing into an index-addressed
table. -/

/-- Run the completion schedule: each finishing task writes its value
into its own slot. -/
def completeTasks (task : Nat → String) : List Nat → (Nat → Option String) → Nat → Option String
  | [], table => table
  | i :: rest, table =>
    completeTasks task rest (fun j => if j = i then some (task i) else table j)

/-- The array `Promise.all` resolves with: slot `i` of the table after
the whole schedule ran, for `i < n`. -/
def gatherResults (task : Nat → String) (order : List Nat) (n : Nat) : List (Option String) :=
  (List.range n).map (completeTasks task order (fun _ => none))

/-- Number of lines of a response body, as a client counting
`text.split('\n')` segments sees it. -/
def lineCount (s : String) : Nat :=
  (jsSplit s '\n').length

/-! ## Transcription job lifecycle
(`POST /api/transcribe`, routes.ts 607–738; storage.ts 129–143) -/

/-- The transcription row fields this subsystem reads and writes. -/
structure TranscriptionRecord where
  url : String
  transcription : String
  originalTranscription : Option String
  sourceLanguage : Option String
  error : Option String
  status : String
  progress : Nat
  deriving DecidableEq, Repr

/-- `DatabaseStorage.updateTranscriptionStatus` (storage.ts 129–143):
`status` and `progress` are always written; `transcription`,
`originalTranscription` and `error` only when the argument is truthy
(present and non-empty). -/
def updateTranscriptionStatus (r : TranscriptionRecord) (status : String)
    (progress : Nat) (transcription originalTranscription error : Option String) :
    TranscriptionRecord :=
  { r with
    status := status
    progress := progress
    transcription :=
      match transcription with
      | some t => if t = "" then r.transcription else t
      | none => r.transcription
    originalTranscription :=
      match originalTranscription with
      | some t => if t = "" then r.originalTranscription else some t
      | none => r.originalTranscription
    error :=
      match error with
      | some e => if e = "" then r.error else some e
      | none => r.error }

/-- The record `storage.createTranscription` is called with by
`POST /api/transcribe` (routes.ts 666–678). -/
def createdTranscription (url : String) : TranscriptionRecord :=
  { url := url
    transcription := ""
    originalTranscription := none
    sourceLanguage := none
    error := none
    status := "processing"
    progress := 0 }

/-- Result of `fetchYoutubeTranscript`: formatted caption text plus
detected language on success, a thrown error otherwise. -/
inductive FetchOutcome where
  | success (transcriptWithTimestamps : String) (language : String)
  | failure (errorMessage : String)
  deriving DecidableEq, Repr

/-- The sequence of persisted job states produced by
`POST /api/transcribe` (routes.ts 663–719): synchronous create, then in
the background `processing/50`, then on success `completed/100` with the
transcript (plus a separate `sourceLanguage` update), or on failure
`error/0` with the message. -/
def transcriptionTrace (url : String) (outcome : FetchOutcome) :
    List TranscriptionRecord :=
  let s0 := createdTranscription url
  let s1 := updateTranscriptionStatus s0 "processing" 50 none none none
  match outcome with
  | .success text language =>
    let s2 := updateTranscriptionStatus s1 "completed" 100 (some text) (some text) none
    let s3 := { s2 with sourceLanguage := some language }
    [s0, s1, s2, s3]
  | .failure errorMessage =>
    [s0, s1, updateTranscriptionStatus s1 "error" 0 none none (some errorMessage)]

/-! ## Document translation job
(`POST /api/translate-pdf`, routes.ts 1358–1537; storage.ts 344–378) -/

/-- The document-translation row fields this subsystem touches. -/
structure PdfRecord where
  fileName : String
  status : String
  progress : Nat
  pageCount : Nat
  translatedFileUrl : Option String
  error : Option String
  deriving DecidableEq, Repr

/-- The optional `reset` block of `updatePdfTranslationStatus`. -/
structure PdfResetFlags where
  error : Bool := false
  translatedFileUrl : Bool := false
  pageCount : Bool := false
  deriving DecidableEq, Repr

/-- The payload of `updatePdfTranslationStatus`. -/
structure PdfUpdatePayload where
  status : String
  progress : Nat
  pageCount : Option Nat := none
  translatedFileUrl : Option String := none
  error : Option String := none
  reset : Option PdfResetFlags := none
  deriving DecidableEq, Repr

/-- `DatabaseStorage.updatePdfTranslationStatus` (storage.ts 344–378):
`status`/`progress` always, explicit resets, truthy updates, and the
auto-reset of `error` and `translatedFileUrl` when status is
`"processing"` without a `reset` block; the later assignments to the
`updates` object override the earlier ones. -/
def updatePdfTranslationStatus (r : PdfRecord) (p : PdfUpdatePayload) : PdfRecord :=
  let r := { r with status := p.status, progress := p.progress }
  let r := if (p.reset.map PdfResetFlags.error).getD false then { r with error := none } else r
  let r :=
    if (p.reset.map PdfResetFlags.translatedFileUrl).getD false then
      { r with translatedFileUrl := none }
    else r
  let r := if (p.reset.map PdfResetFlags.pageCount).getD false then { r with pageCount := 0 } else r
  let r := match p.pageCount with | some n => { r with pageCount := n } | none => r
  let r :=
    match p.translatedFileUrl with
    | some u => if u = "" then r else { r with translatedFileUrl := some u }
    | none => r
  let r :=
    match p.error with
    | some e => if e = "" then r else { r with error := some e }
    | none => r
  if p.status = "processing" ∧ p.reset = none then
    { r with error := none, translatedFileUrl := none }
  else r

/-- The record `storage.createPdfTranslation` is called with by
`POST /api/translate-pdf` (routes.ts 1408–1417). -/
def createdPdfTranslation (fileName : String) : PdfRecord :=
  { fileName := fileName
    status := "processing"
    progress := 0
    pageCount := 0
    translatedFileUrl := none
    error := none }

/-- Where the background document task stops (routes.ts 1420–1514):
extraction can throw, the later steps can throw before or after the 70%
checkpoint, the task can complete, and the cleanup after completion can
still throw. -/
inductive DocOutcome where
  | failBeforeExtractCheckpoint (errorMessage : String)
  | failAfterExtractCheckpoint (pageCount : Nat) (errorMessage : String)
  | failAfterWriteCheckpoint (pageCount : Nat) (errorMessage : String)
  | success (pageCount : Nat)
  | failAfterCompleted (pageCount : Nat) (errorMessage : String)
  deriving DecidableEq, Repr

/-- The error-handler update of the document task (routes.ts
1507–1512). -/
def pdfErrorUpdate (errorMessage : String) : PdfUpdatePayload :=
  { status := "error", progress := 0, error := some errorMessage,
    reset := some { translatedFileUrl := true } }

/-- The sequence of persisted document-job states produced by
`POST /api/translate-pdf`: create, checkpoint at 30% (with resets),
checkpoint at 70%, completion at 100% with the download URL, and on any
failure the error update. -/
def pdfTranslationTrace (fileName downloadUrl : String) (outcome : DocOutcome) :
    List PdfRecord :=
  let s0 := createdPdfTranslation fileName
  match outcome with
  | .failBeforeExtractCheckpoint msg =>
    [s0, updatePdfTranslationStatus s0 (pdfErrorUpdate msg)]
  | .failAfterExtractCheckpoint pageCount msg =>
    let s1 := updatePdfTranslationStatus s0
      { status := "processing", progress := 30, pageCount := some pageCount,
        reset := some { error := true, translatedFileUrl := true } }
    [s0, s1, updatePdfTranslationStatus s1 (pdfErrorUpdate msg)]
  | .failAfterWriteCheckpoint pageCount msg =>
    let s1 := updatePdfTranslationStatus s0
      { status := "processing", progress := 30, pageCount := some pageCount,
        reset := some { error := true, translatedFileUrl := true } }
    let s2 := updatePdfTranslationStatus s1 { status := "processing", progress := 70 }
    [s0, s1, s2, updatePdfTranslationStatus s2 (pdfErrorUpdate msg)]
  | .success pageCount =>
    let s1 := updatePdfTranslationStatus s0
      { status := "processing", progress := 30, pageCount := some pageCount,
        reset := some { error := true, translatedFileUrl := true } }
    let s2 := updatePdfTranslationStatus s1 { status := "processing", progress := 70 }
    let s3 := updatePdfTranslationStatus s2
      { status := "completed", progress := 100, pageCount := some pageCount,
        translatedFileUrl := some downloadUrl }
    [s0, s1, s2, s3]
  | .failAfterCompleted pageCount msg =>
    let s1 := updatePdfTranslationStatus s0
      { status := "processing", progress := 30, pageCount := some pageCount,
        reset := some { error := true, translatedFileUrl := true } }
    let s2 := updatePdfTranslationStatus s1 { status := "processing", progress := 70 }
    let s3 := updatePdfTranslationStatus s2
      { status := "completed", progress := 100, pageCount := some pageCount,
        translatedFileUrl := some downloadUrl }
    [s0, s1, s2, s3, updatePdfTranslationStatus s3 (pdfErrorUpdate msg)]

/-! # Theorems -/

/-! ## Helper lemmas -/

/-- A successful association-list lookup yields one of the stored
values. -/
theorem mem_values_of_lookup {l : List (String × String)} {a v : String}
    (h : l.lookup a = some v) : v ∈ l.map Prod.snd := by
  induction l with
  | nil => simp [List.lookup] at h
  | cons hd tl ih =>
    rw [List.lookup] at h
    by_cases hb : a == hd.1
    · simp [hb] at h
      simp [← h]
    · simp [hb] at h
      exact List.mem_cons_of_mem _ (ih h)

/-- Every output of `normalizeLanguageCode` is `"en"` or a value of the
supported-language table. -/
theorem normalizeLanguageCode_mem (code : String) :
    normalizeLanguageCode code ∈ "en" :: languageMap.map Prod.snd := by
  unfold normalizeLanguageCode
  split
  · exact List.mem_cons_self _ _
  · cases h : languageMap.lookup (firstSegment (firstSegment (jsToLower code) '-') '_') with
    | none => simp [h]
    | some v =>
      simp only [h, Option.getD_some]
      exact List.mem_cons_of_mem _ (mem_values_of_lookup h)

/-- Every supported code is a fixed point of `normalizeLanguageCode`. -/
theorem normalizeLanguageCode_fixed :
    ∀ s ∈ "en" :: languageMap.map Prod.snd, normalizeLanguageCode s = s := by
  decide

/-! ## C8 — the language-code normalizer -/

/-- C8: `normalizeLanguageCode` is a pure total function; it is
idempotent, maps `"en-US"`, `""` and `"xx-unknown"` to `"en"`, and in
general lower-cases, keeps the segment before the first `'-'` or `'_'`,
maps it through the fixed supported-language table and defaults to
`"en"`. -/
theorem C8_normalizeLanguageCode_spec :
    (∀ code, normalizeLanguageCode (normalizeLanguageCode code) = normalizeLanguageCode code) ∧
    normalizeLanguageCode "en-US" = "en" ∧
    normalizeLanguageCode "" = "en" ∧
    normalizeLanguageCode "xx-unknown" = "en" ∧
    (∀ code, code ≠ "" → normalizeLanguageCode code =
      (languageMap.lookup (firstSegment (firstSegment (jsToLower code) '-') '_')).getD "en") := by
  refine ⟨?_, by decide, by decide, by decide, ?_⟩
  · intro code
    exact normalizeLanguageCode_fixed _ (normalizeLanguageCode_mem code)
  · intro code hcode
    simp [normalizeLanguageCode, hcode]

/-- Concrete instance of the general-behavior clause of C8. -/
theorem C8_normalizeLanguageCode_spec_witness :
    normalizeLanguageCode "FR_ca" =
      (languageMap.lookup (firstSegment (firstSegment (jsToLower "FR_ca") '-') '_')).getD "en" :=
  C8_normalizeLanguageCode_spec.2.2.2.2 "FR_ca" (by decide)

/-! ## C4 — provider failure degrades to the original text -/

/-- C4: for every input text and language pair, when the provider
fails (the call throws, or the API key is missing) `translateText`
returns the original input unchanged; the embedding is a total
function, so no provider exception ever reaches the caller. -/
theorem C4_translateText_degrades (apiKeyPresent : Bool)
    (localizeText : String → String → String → ProviderResult)
    (text targetLanguage sourceLanguage : String)
    (h : apiKeyPresent = false ∨
      localizeText text (normalizeLanguageCode sourceLanguage)
        (normalizeLanguageCode targetLanguage) = .err) :
    translateText apiKeyPresent localizeText text targetLanguage sourceLanguage = text := by
  unfold translateText
  rcases h with h | h
  · simp [h]
  · cases apiKeyPresent <;> simp [h]

/-- C4 at a concrete input: a provider that always throws leaves
`"00:00:00 hello"` unchanged. -/
theorem C4_translateText_degrades_witness :
    translateText true (fun _ _ _ => ProviderResult.err) "00:00:00 hello" "es" "en" =
      "00:00:00 hello" :=
  C4_translateText_degrades true (fun _ _ _ => ProviderResult.err) "00:00:00 hello" "es" "en"
    (Or.inr rfl)

/-! ## C10 — `updateTranscriptionStatus` never clears stored data -/

/-- C10: `updateTranscriptionStatus` always overwrites `status` and
`progress`, while each of `transcription`, `originalTranscription` and
`error` is — independently of the other arguments — left unchanged
whenever its own argument is absent or empty (in particular the
transition to `error` status with a non-empty message keeps any
transcript already on the record). -/
theorem C10_updateTranscriptionStatus_frame (r : TranscriptionRecord) (status : String)
    (progress : Nat) (transcription originalTranscription error : Option String) :
    ((transcription = none ∨ transcription = some "") →
      (updateTranscriptionStatus r status progress transcription originalTranscription
        error).transcription = r.transcription) ∧
    ((originalTranscription = none ∨ originalTranscription = some "") →
      (updateTranscriptionStatus r status progress transcription originalTranscription
        error).originalTranscription = r.originalTranscription) ∧
    ((error = none ∨ error = some "") →
      (updateTranscriptionStatus r status progress transcription originalTranscription
        error).error = r.error) ∧
    (updateTranscriptionStatus r status progress transcription originalTranscription
        error).sourceLanguage = r.sourceLanguage ∧
    (updateTranscriptionStatus r status progress transcription originalTranscription
        error).url = r.url ∧
    (updateTranscriptionStatus r status progress transcription originalTranscription
        error).status = status ∧
    (updateTranscriptionStatus r status progress transcription originalTranscription
        error).progress = progress := by
  refine ⟨?_, ?_, ?_, ?_, ?_, ?_, ?_⟩
  · rintro (rfl | rfl) <;> simp [updateTranscriptionStatus]
  · rintro (rfl | rfl) <;> simp [updateTranscriptionStatus]
  · rintro (rfl | rfl) <;> simp [updateTranscriptionStatus]
  · simp [updateTranscriptionStatus]
  · simp [updateTranscriptionStatus]
  · simp [updateTranscriptionStatus]
  · simp [updateTranscriptionStatus]

/-- C10 at the claim's own example, a mixed call: the `error`
transition of the background task (`updateTranscriptionStatus(id,
"error", 0, undefined, undefined, errorMessage)` with a non-empty
message) keeps the stored transcript while recording the new status. -/
theorem C10_updateTranscriptionStatus_frame_witness :
    (updateTranscriptionStatus
        { url := "u", transcription := "00:00:00 hello", originalTranscription := some "00:00:00 hello",
          sourceLanguage := some "en", error := none, status := "completed", progress := 100 }
        "error" 0 none none (some "Could not retrieve a transcript")).transcription =
      "00:00:00 hello" ∧
    (updateTranscriptionStatus
        { url := "u", transcription := "00:00:00 hello", originalTranscription := some "00:00:00 hello",
          sourceLanguage := some "en", error := none, status := "completed", progress := 100 }
        "error" 0 none none (some "Could not retrieve a transcript")).originalTranscription =
      some "00:00:00 hello" ∧
    (updateTranscriptionStatus
        { url := "u", transcription := "00:00:00 hello", originalTranscription := some "00:00:00 hello",
          sourceLanguage := some "en", error := none, status := "completed", progress := 100 }
        "error" 0 none none (some "Could not retrieve a transcript")).status = "error" :=
  ⟨(C10_updateTranscriptionStatus_frame
      { url := "u", transcription := "00:00:00 hello", originalTranscription := some "00:00:00 hello",
        sourceLanguage := some "en", error := none, status := "completed", progress := 100 }
      "error" 0 none none (some "Could not retrieve a transcript")).1 (Or.inl rfl),
    (C10_updateTranscriptionStatus_frame
      { url := "u", transcription := "00:00:00 hello", originalTranscription := some "00:00:00 hello",
        sourceLanguage := some "en", error := none, status := "completed", progress := 100 }
      "error" 0 none none (some "Could not retrieve a transcript")).2.1 (Or.inl rfl),
    (C10_updateTranscriptionStatus_frame
      { url := "u", transcription := "00:00:00 hello", originalTranscription := some "00:00:00 hello",
        sourceLanguage := some "en", error := none, status := "completed", progress := 100 }
      "error" 0 none none (some "Could not retrieve a transcript")).2.2.2.2.2.1⟩

/-! ## Lemmas about split segments -/

/-- If every segment `split('\n')` produces is blank, so are all the
input characters (and the pending accumulator). -/
theorem all_blank_of_segments_blank :
    ∀ (cs acc : List Char),
      (∀ l ∈ jsSplitChars '\n' cs acc, l.all isJsWhitespace = true) →
      cs.all isJsWhitespace = true ∧ acc.all isJsWhitespace = true := by
  intro cs
  induction cs with
  | nil =>
    intro acc h
    have := h acc.reverse (by simp [jsSplitChars])
    simpa using this
  | cons c cs ih =>
    intro acc h
    rw [jsSplitChars] at h
    by_cases hc : c = '\n'
    · rw [if_pos hc] at h
      have hacc := h acc.reverse (List.mem_cons_self _ _)
      have hrest := ih [] (fun l hl => h l (List.mem_cons_of_mem _ hl))
      refine ⟨?_, by simpa using hacc⟩
      simp [hc, hrest.1, isJsWhitespace]
    · rw [if_neg hc] at h
      have := ih (c :: acc) h
      have hca := this.2
      simp only [List.all_cons, Bool.and_eq_true] at hca ⊢
      exact ⟨⟨hca.1, this.1⟩, hca.2⟩

/-- A non-blank transcript yields at least one non-blank line to
translate. -/
theorem transcriptLines_ne_nil {s : String} (h : isBlankString s = false) :
    transcriptLines s ≠ [] := by
  intro hnil
  have hall : ∀ l ∈ jsSplitChars '\n' s.data [], l.all isJsWhitespace = true := by
    intro l hl
    by_contra hb
    have hmem : String.mk l ∈ transcriptLines s := by
      unfold transcriptLines jsSplit
      refine List.mem_filter.mpr ⟨List.mem_map_of_mem _ hl, ?_⟩
      simp only [isBlankString, Bool.not_eq_true']
      exact Bool.not_eq_true _ ▸ (by simpa using hb)
    rw [hnil] at hmem
    exact absurd hmem (List.not_mem_nil _)
  have := (all_blank_of_segments_blank s.data [] hall).1
  rw [isBlankString] at h
  rw [this] at h
  cases h

/-! ## C3 — same-language short-circuit -/

/-- C3: when the resolved source language and the requested target
agree after normalization, the route returns the stored transcript
verbatim, invokes `translateText` zero times and issues no cache
mutation. -/
theorem C3_getTranslation_same_language (apiKeyPresent : Bool)
    (localizeText : Nat → String → String → String → ProviderResult)
    (job : Job) (targetLanguage : String) (cache : Cache)
    (hstatus : job.status = "completed")
    (hsame : normalizeLanguageCode targetLanguage =
      normalizeLanguageCode (resolveSourceLanguage job)) :
    (getTranslation apiKeyPresent localizeText job targetLanguage cache).response =
      .ok targetLanguage job.transcription ∧
    (getTranslation apiKeyPresent localizeText job targetLanguage cache).cacheOps = [] ∧
    (getTranslation apiKeyPresent localizeText job targetLanguage cache).translateCalls = 0 := by
  have hmock : ¬ (normalizeLanguageCode (resolveSourceLanguage job) = "hi" ∧
      normalizeLanguageCode targetLanguage = "en") := by
    rintro ⟨h1, h2⟩
    rw [h1, h2] at hsame
    exact absurd hsame (by decide)
  unfold getTranslation
  rw [if_neg (by simp [hstatus])]
  simp [if_neg hmock, if_pos hsame]

/-- C3 at a concrete input: an English transcript requested in
`"en-US"` comes back verbatim, uncached, with zero provider calls. -/
theorem C3_getTranslation_same_language_witness :
    (getTranslation true (fun _ _ _ _ => ProviderResult.err)
        { transcription := "00:00:00 hello\n00:00:05 world", sourceLanguage := some "en",
          status := "completed" } "en-US" []).response =
      .ok "en-US" "00:00:00 hello\n00:00:05 world" ∧
    (getTranslation true (fun _ _ _ _ => ProviderResult.err)
        { transcription := "00:00:00 hello\n00:00:05 world", sourceLanguage := some "en",
          status := "completed" } "en-US" []).cacheOps = [] ∧
    (getTranslation true (fun _ _ _ _ => ProviderResult.err)
        { transcription := "00:00:00 hello\n00:00:05 world", sourceLanguage := some "en",
          status := "completed" } "en-US" []).translateCalls = 0 :=
  C3_getTranslation_same_language true (fun _ _ _ _ => ProviderResult.err)
    { transcription := "00:00:00 hello\n00:00:05 world", sourceLanguage := some "en",
      status := "completed" } "en-US" [] (by decide) (by decide)

/-! ## C7 — a blank joined result is an error and is not cached -/

/-- C7: when the per-line translation of a non-blank transcript joins
to a blank result, the route answers HTTP 500 and writes nothing to
the cache. -/
theorem C7_getTranslation_blank_result (apiKeyPresent : Bool)
    (localizeText : Nat → String → String → String → ProviderResult)
    (job : Job) (targetLanguage : String) (cache : Cache)
    (hstatus : job.status = "completed")
    (hne : isBlankString job.transcription = false)
    (hmock : ¬ (normalizeLanguageCode (resolveSourceLanguage job) = "hi" ∧
      normalizeLanguageCode targetLanguage = "en"))
    (hdiff : normalizeLanguageCode targetLanguage ≠
      normalizeLanguageCode (resolveSourceLanguage job))
    (hcache : cacheGet cache targetLanguage = none ∨
      ∃ c, cacheGet cache targetLanguage = some c ∧
        normalizeLanguageCode targetLanguage = "en" ∧ containsDevanagari c = true)
    (hblank : isBlankString (jsJoin (translatedLines apiKeyPresent localizeText
      (normalizeLanguageCode (resolveSourceLanguage job))
      (normalizeLanguageCode targetLanguage)
      (transcriptLines job.transcription)) '\n') = true) :
    (getTranslation apiKeyPresent localizeText job targetLanguage cache).response =
      .error 500 ∧
    ∀ op ∈ (getTranslation apiKeyPresent localizeText job targetLanguage cache).cacheOps,
      ∀ lang text, op ≠ .put lang text := by
  have hfresh : ∀ priorOps, freshTranslation apiKeyPresent localizeText job targetLanguage
      (normalizeLanguageCode (resolveSourceLanguage job))
      (normalizeLanguageCode targetLanguage) priorOps =
      ⟨.error 500, priorOps, (transcriptLines job.transcription).length,
        sourceLanguageCorrection job⟩ := by
    intro priorOps
    unfold freshTranslation
    rw [if_neg (by simp [hne])]
    rw [if_neg (by
      have := transcriptLines_ne_nil hne
      simpa [List.length_eq_zero] using this)]
    rw [if_pos hblank]
  rcases hcache with hmiss | ⟨c, hhit, htgt, hdev⟩
  · have hval : getTranslation apiKeyPresent localizeText job targetLanguage cache =
        ⟨.error 500, [], (transcriptLines job.transcription).length,
          sourceLanguageCorrection job⟩ := by
      unfold getTranslation
      rw [if_neg (by simp [hstatus])]
      simp only [if_neg hmock, if_neg hdiff, hmiss]
      exact hfresh []
    rw [hval]
    exact ⟨rfl, by intro op hop lang text; simp at hop⟩
  · have hval : getTranslation apiKeyPresent localizeText job targetLanguage cache =
        ⟨.error 500, [.del targetLanguage], (transcriptLines job.transcription).length,
          sourceLanguageCorrection job⟩ := by
      unfold getTranslation
      rw [if_neg (by simp [hstatus])]
      simp only [if_neg hmock, if_neg hdiff, hhit]
      rw [if_pos ⟨htgt, hdev⟩]
      exact hfresh [.del targetLanguage]
    rw [hval]
    refine ⟨rfl, ?_⟩
    intro op hop lang text
    simp only [List.mem_singleton] at hop
    rw [hop]
    intro hcontra
    exact CacheOp.noConfusion hcontra

/-- C7 at a concrete input: a provider that answers empty strings makes
the joined result blank; the route answers 500 and caches nothing. -/
theorem C7_getTranslation_blank_result_witness :
    (getTranslation true (fun _ _ _ _ => ProviderResult.ok "")
        { transcription := "hello", sourceLanguage := some "en", status := "completed" }
        "es" []).response = .error 500 ∧
    ∀ op ∈ (getTranslation true (fun _ _ _ _ => ProviderResult.ok "")
        { transcription := "hello", sourceLanguage := some "en", status := "completed" }
        "es" []).cacheOps, ∀ lang text, op ≠ .put lang text :=
  C7_getTranslation_blank_result true (fun _ _ _ _ => ProviderResult.ok "")
    { transcription := "hello", sourceLanguage := some "en", status := "completed" }
    "es" [] (by decide) (by decide) (by decide) (by decide) (Or.inl (by decide)) (by decide)

/-! ## C5 — transcription job lifecycle -/

/-- C5 counterexample: `POST /api/transcribe` creates the job record
with status `"processing"`, not `"pending"` — the claimed initial
`pending` state never exists. -/
theorem C5_created_status_counterexample :
    (createdTranscription "https://youtu.be/dQw4w9WgXcQ").status = "processing" ∧
    (createdTranscription "https://youtu.be/dQw4w9WgXcQ").status ≠ "pending" ∧
    (transcriptionTrace "https://youtu.be/dQw4w9WgXcQ"
        (.success "00:00:00 hello" "en")).head?.map TranscriptionRecord.status ≠
      some "pending" := by
  decide

/-- A transition a polling client may observe: stay in `"processing"`,
or move from `"processing"` into any status; a terminal status never
changes. -/
def allowedTransition (a b : String) : Bool :=
  (a = "processing" && (b = "processing" || b = "completed" || b = "error")) || a = b

/-- C5 (amended): the job record is created synchronously with status
`"processing"` (progress 0); the background task re-asserts
`processing` at progress 50 and then either sets `completed` with the
transcript text and detected language or sets `error` with the
message; the status sequence never leaves a terminal state. -/
theorem C5_transcriptionTrace_lifecycle (url text language errorMessage : String)
    (hmsg : errorMessage ≠ "") :
    (transcriptionTrace url (.success text language)).map TranscriptionRecord.status =
      ["processing", "processing", "completed", "completed"] ∧
    (transcriptionTrace url (.success text language)).getLast?.map
      TranscriptionRecord.transcription = some text ∧
    (transcriptionTrace url (.success text language)).getLast?.map
      TranscriptionRecord.sourceLanguage = some (some language) ∧
    (transcriptionTrace url (.failure errorMessage)).map TranscriptionRecord.status =
      ["processing", "processing", "error"] ∧
    (transcriptionTrace url (.failure errorMessage)).getLast?.map
      TranscriptionRecord.error = some (some errorMessage) ∧
    (∀ outcome : FetchOutcome,
      List.Chain' (fun a b => allowedTransition a b = true)
        ((transcriptionTrace url outcome).map TranscriptionRecord.status)) := by
  refine ⟨?_, ?_, ?_, ?_, ?_, ?_⟩
  · simp [transcriptionTrace, createdTranscription, updateTranscriptionStatus]
  · by_cases htext : text = "" <;>
      simp [transcriptionTrace, createdTranscription, updateTranscriptionStatus, htext]
  · simp [transcriptionTrace, createdTranscription, updateTranscriptionStatus]
  · simp [transcriptionTrace, createdTranscription, updateTranscriptionStatus]
  · simp [transcriptionTrace, createdTranscription, updateTranscriptionStatus, hmsg]
  · intro outcome
    cases outcome <;>
      simp [transcriptionTrace, createdTranscription, updateTranscriptionStatus,
        List.chain'_cons, allowedTransition]

/-- C5 (amended) at a concrete input. -/
theorem C5_transcriptionTrace_lifecycle_witness :
    (transcriptionTrace "https://youtu.be/x" (.failure "No captions available")).map
      TranscriptionRecord.status = ["processing", "processing", "error"] :=
  (C5_transcriptionTrace_lifecycle "https://youtu.be/x" "00:00:00 hi" "en"
    "No captions available" (by decide)).2.2.2.1

/-! ## C9 — `translatedFileUrl` only on completed documents -/

/-- C9: across every state the document-translation background task
persists, `translatedFileUrl` is set only while the status is
`completed`; every processing checkpoint and every failure update
leaves it empty. -/
theorem C9_pdf_url_invariant (fileName downloadUrl : String) (outcome : DocOutcome) :
    (∀ r ∈ pdfTranslationTrace fileName downloadUrl outcome,
      r.translatedFileUrl.isSome = true → r.status = "completed") ∧
    (∀ r ∈ pdfTranslationTrace fileName downloadUrl outcome,
      r.status = "error" → r.translatedFileUrl = none) ∧
    (∀ r ∈ pdfTranslationTrace fileName downloadUrl outcome,
      r.status = "processing" → r.translatedFileUrl = none) := by
  cases outcome <;> refine ⟨?_, ?_, ?_⟩ <;>
    · simp only [pdfTranslationTrace, List.forall_mem_cons, List.forall_mem_nil, and_true]
      simp [updatePdfTranslationStatus, createdPdfTranslation, pdfErrorUpdate]
      all_goals (try (split <;> simp_all))
      all_goals (try (split <;> simp_all))

/-- C9 at a concrete input: the failure update after a completed run
clears the URL again. -/
theorem C9_pdf_url_invariant_witness :
    ((pdfTranslationTrace "report.pdf" "/api/translate-pdf/1/download"
        (.failAfterCompleted 2 "cleanup failed")).getLastD
      (createdPdfTranslation "report.pdf")).translatedFileUrl = none :=
  (C9_pdf_url_invariant "report.pdf" "/api/translate-pdf/1/download"
      (.failAfterCompleted 2 "cleanup failed")).2.1
    _ (by decide) (by decide)

/-! ## Split / join round trip -/

/-- Splitting a separator-free character list yields a single segment. -/
theorem jsSplitChars_no_sep {sep : Char} :
    ∀ {cs : List Char} (acc : List Char), sep ∉ cs →
      jsSplitChars sep cs acc = [acc.reverse ++ cs] := by
  intro cs
  induction cs with
  | nil => intro acc _; simp [jsSplitChars]
  | cons c cs ih =>
    intro acc h
    have hc : ¬ c = sep := fun hc => h (hc ▸ List.mem_cons_self c cs)
    rw [jsSplitChars, if_neg hc, ih (c :: acc) (fun hm => h (List.mem_cons_of_mem c hm))]
    simp

/-- Splitting past a separator-free prefix followed by the separator
peels off that prefix as one segment. -/
theorem jsSplitChars_append_sep {sep : Char} :
    ∀ {a : List Char} (cs acc : List Char), sep ∉ a →
      jsSplitChars sep (a ++ sep :: cs) acc =
        (acc.reverse ++ a) :: jsSplitChars sep cs [] := by
  intro a
  induction a with
  | nil => intro cs acc _; simp [jsSplitChars]
  | cons c a ih =>
    intro cs acc h
    have hc : ¬ c = sep := fun hc => h (hc ▸ List.mem_cons_self c a)
    rw [List.cons_append, jsSplitChars, if_neg hc,
      ih cs (c :: acc) (fun hm => h (List.mem_cons_of_mem c hm))]
    simp

/-- Splitting the separator-interleaved concatenation of separator-free
segments recovers exactly the segments. -/
theorem jsSplitChars_intercalate {sep : Char} :
    ∀ {segs : List (List Char)}, segs ≠ [] → (∀ seg ∈ segs, sep ∉ seg) →
      jsSplitChars sep (List.intercalate [sep] segs) [] = segs := by
  intro segs
  induction segs with
  | nil => intro h; exact absurd rfl h
  | cons a segs ih =>
    intro _ hfree
    cases segs with
    | nil =>
      simpa [List.intercalate] using
        jsSplitChars_no_sep [] (hfree a (List.mem_cons_self _ _))
    | cons b rest =>
      have hinter : List.intercalate [sep] (a :: b :: rest) =
          a ++ sep :: List.intercalate [sep] (b :: rest) := by
        simp [List.intercalate, List.intersperse]
      rw [hinter, jsSplitChars_append_sep _ _ (hfree a (List.mem_cons_self _ _))]
      simp only [List.reverse_nil, List.nil_append, List.cons.injEq, true_and]
      exact ih (by simp) (fun seg hs => hfree seg (List.mem_cons_of_mem _ hs))

/-- Joining newline-free lines and splitting again is the identity. -/
theorem jsSplit_jsJoin {parts : List String} (hne : parts ≠ [])
    (hfree : ∀ p ∈ parts, '\n' ∉ p.data) :
    jsSplit (jsJoin parts '\n') '\n' = parts := by
  unfold jsSplit jsJoin
  rw [jsSplitChars_intercalate (by simpa using hne)
    (by intro seg hs
        obtain ⟨p, hp, rfl⟩ := List.mem_map.mp hs
        exact hfree p hp)]
  rw [List.map_map]
  have : (String.mk ∘ String.data) = id := by
    funext s
    cases s
    rfl
  rw [this, List.map_id]

/-- Every segment `split` produces is free of the separator. -/
theorem jsSplitChars_sep_free {sep : Char} :
    ∀ (cs acc : List Char), sep ∉ acc →
      ∀ l ∈ jsSplitChars sep cs acc, sep ∉ l := by
  intro cs
  induction cs with
  | nil =>
    intro acc hacc l hl
    simp only [jsSplitChars, List.mem_singleton] at hl
    subst hl
    simpa using hacc
  | cons c cs ih =>
    intro acc hacc l hl
    rw [jsSplitChars] at hl
    by_cases hc : c = sep
    · rw [if_pos hc] at hl
      rcases List.mem_cons.mp hl with rfl | hl
      · simpa using hacc
      · exact ih [] (List.not_mem_nil sep) l hl
    · rw [if_neg hc] at hl
      refine ih (c :: acc) ?_ l hl
      intro hm
      rcases List.mem_cons.mp hm with h | h
      · exact hc h.symm
      · exact hacc h

/-- The lines of a transcript contain no newline character. -/
theorem transcriptLines_newline_free (s : String) :
    ∀ l ∈ transcriptLines s, '\n' ∉ l.data := by
  intro l hl
  have hl' : l ∈ jsSplit s '\n' := List.mem_of_mem_filter hl
  obtain ⟨cs, hcs, rfl⟩ := List.mem_map.mp hl'
  exact jsSplitChars_sep_free s.data [] (List.not_mem_nil _) cs hcs

/-! ## Out-of-order completion is harmless -/

/-- A slot no task of the schedule writes keeps its table value. -/
theorem completeTasks_not_mem (task : Nat → String) :
    ∀ (order : List Nat) (table : Nat → Option String) (i : Nat), i ∉ order →
      completeTasks task order table i = table i := by
  intro order
  induction order with
  | nil => intro table i _; rfl
  | cons j rest ih =>
    intro table i hi
    rw [completeTasks]
    rw [ih _ i (fun h => hi (List.mem_cons_of_mem _ h))]
    have hij : i ≠ j := fun h => hi (h ▸ List.mem_cons_self _ _)
    simp [hij]

/-- A slot some task of the schedule writes ends up holding that task's
value, no matter where in the schedule the write happened. -/
theorem completeTasks_mem (task : Nat → String) :
    ∀ (order : List Nat) (table : Nat → Option String) (i : Nat), i ∈ order →
      completeTasks task order table i = some (task i) := by
  intro order
  induction order with
  | nil => intro table i hi; exact absurd hi (List.not_mem_nil _)
  | cons j rest ih =>
    intro table i hi
    rw [completeTasks]
    by_cases hr : i ∈ rest
    · exact ih _ i hr
    · have hij : i = j := by
        rcases List.mem_cons.mp hi with h | h
        · exact h
        · exact absurd h hr
      rw [completeTasks_not_mem task rest _ i hr, hij, if_pos rfl]

/-- As long as the schedule completes every task, the array
`Promise.all` resolves with is index-ordered and independent of the
completion order. -/
theorem gatherResults_complete (task : Nat → String) (order : List Nat) (n : Nat)
    (h : ∀ i < n, i ∈ order) :
    gatherResults task order n = (List.range n).map (fun i => some (task i)) := by
  unfold gatherResults
  refine List.map_congr_left ?_
  intro i hi
  exact completeTasks_mem task order _ i (h i (List.mem_range.mp hi))

/-- `mapIdx` as an index-driven table: entry `i` is the body applied to
index `i` and element `i`. -/
theorem mapIdx_eq_range_map {α β : Type} (dflt : α) :
    ∀ (l : List α) (f : Nat → α → β),
      l.mapIdx f = (List.range l.length).map (fun i => f i (l.getD i dflt)) := by
  intro l
  induction l with
  | nil => intro f; simp
  | cons a l ih =>
    intro f
    rw [List.mapIdx_cons, ih (fun i => f (i + 1)), List.length_cons,
      List.range_succ_eq_map, List.map_cons, List.map_map]
    simp [Function.comp]

/-! ## Character provenance of per-line results -/

/-- The default-respecting last element of a non-empty list is a
member. -/
theorem getLastD_mem_of_ne_nil {α : Type} (d : α) :
    ∀ (l : List α), l ≠ [] → l.getLastD d ∈ l := by
  intro l hl
  cases l with
  | nil => exact absurd rfl hl
  | cons a l =>
    rw [List.getLastD]
    exact List.getLast_mem _

/-- `translateText` returns either the provider's output or the
original text. -/
theorem translateText_cases (apiKeyPresent : Bool)
    (localizeText : String → String → String → ProviderResult)
    (text targetLanguage sourceLanguage : String) :
    translateText apiKeyPresent localizeText text targetLanguage sourceLanguage = text ∨
    ∃ t, localizeText text (normalizeLanguageCode sourceLanguage)
        (normalizeLanguageCode targetLanguage) = .ok t ∧
      translateText apiKeyPresent localizeText text targetLanguage sourceLanguage = t := by
  unfold translateText
  cases apiKeyPresent with
  | false => exact Or.inl rfl
  | true =>
    cases h : localizeText text (normalizeLanguageCode sourceLanguage)
        (normalizeLanguageCode targetLanguage) with
    | ok t => exact Or.inr ⟨t, rfl, by simp [h]⟩
    | err => exact Or.inl (by simp [h])

/-- Both captured groups of the timestamp regex are made of characters
of the matched line. -/
theorem timestampMatch_chars {line ts txt : String}
    (h : timestampMatch line = some (ts, txt)) :
    (∀ c ∈ ts.data, c ∈ line.data) ∧ ∀ c ∈ txt.data, c ∈ line.data := by
  unfold timestampMatch at h
  dsimp only at h
  split at h
  · exact absurd h (by simp)
  · split at h
    · exact absurd h (by simp)
    · split at h
      · exact absurd h (by simp)
      · split at h
        · rw [Option.some.injEq, Prod.mk.injEq] at h
          obtain ⟨hts, htxt⟩ := h
          constructor
          · intro c hc
            rw [← hts] at hc
            exact List.mem_of_mem_take hc
          · intro c hc
            rw [← htxt] at hc
            exact List.drop_subset 8 line.data
              ((List.dropWhile_sublist isJsWhitespace).subset hc)
        · split at h
          · rw [Option.some.injEq, Prod.mk.injEq] at h
            obtain ⟨hts, htxt⟩ := h
            constructor
            · intro c hc
              rw [← hts] at hc
              exact List.mem_of_mem_take hc
            · intro c hc
              rw [← htxt] at hc
              rw [List.mem_singleton] at hc
              subst hc
              have hws : (line.data.drop 8).takeWhile isJsWhitespace ≠ [] := by
                intro hnil
                simp [hnil] at *
              have hmem := getLastD_mem_of_ne_nil ' ' _ hws
              exact List.drop_subset 8 line.data
                ((List.takeWhile_sublist isJsWhitespace).subset hmem)
          · exact absurd h (by simp)

/-- A per-line translation result contains no newline, provided the
line does not and the provider never returns one. -/
theorem translateLine_newline_free (apiKeyPresent : Bool)
    (localizeText : Nat → String → String → String → ProviderResult)
    (normalizedSource normalizedTarget : String) (i : Nat) (line : String)
    (hline : '\n' ∉ line.data)
    (hprov : ∀ text src tgt t, localizeText i text src tgt = .ok t → '\n' ∉ t.data) :
    '\n' ∉ (translateLine apiKeyPresent localizeText normalizedSource normalizedTarget
      i line).data := by
  unfold translateLine
  cases hm : timestampMatch line with
  | none =>
    rcases translateText_cases apiKeyPresent (localizeText i) line normalizedTarget
        normalizedSource with h | ⟨t, hok, h⟩
    · rw [h]; exact hline
    · rw [h]; exact hprov _ _ _ _ hok
  | some p =>
    obtain ⟨ts, txt⟩ := p
    have hparts := timestampMatch_chars hm
    intro hmem
    rw [String.data_append, String.data_append] at hmem
    rcases List.mem_append.mp hmem with hmem | hmem
    · rcases List.mem_append.mp hmem with hmem | hmem
      · exact hline (hparts.1 _ hmem)
      · simp at hmem
    · rcases translateText_cases apiKeyPresent (localizeText i) txt normalizedTarget
          normalizedSource with h | ⟨t, hok, h⟩
      · rw [h] at hmem
        exact hline (hparts.2 _ hmem)
      · rw [h] at hmem
        exact hprov _ _ _ _ hok hmem

/-! ## Reduction lemmas for the fresh-translation path -/

/-- `split` always yields at least one segment. -/
theorem jsSplitChars_ne_nil {sep : Char} :
    ∀ (cs acc : List Char), jsSplitChars sep cs acc ≠ [] := by
  intro cs
  induction cs with
  | nil => intro acc; simp [jsSplitChars]
  | cons x cs ih =>
    intro acc
    rw [jsSplitChars]
    split
    · simp
    · exact ih _

/-- Every character of every segment comes from the input or the
pending accumulator. -/
theorem jsSplitChars_chars_subset {sep : Char} :
    ∀ (cs acc : List Char), ∀ l ∈ jsSplitChars sep cs acc, ∀ c ∈ l, c ∈ cs ∨ c ∈ acc := by
  intro cs
  induction cs with
  | nil =>
    intro acc l hl c hc
    simp only [jsSplitChars, List.mem_singleton] at hl
    subst hl
    exact Or.inr (List.mem_reverse.mp hc)
  | cons x cs ih =>
    intro acc l hl c hc
    rw [jsSplitChars] at hl
    by_cases hx : x = sep
    · rw [if_pos hx] at hl
      rcases List.mem_cons.mp hl with rfl | hl
      · exact Or.inr (List.mem_reverse.mp hc)
      · rcases ih [] l hl c hc with h | h
        · exact Or.inl (List.mem_cons_of_mem _ h)
        · exact absurd h (List.not_mem_nil c)
    · rw [if_neg hx] at hl
      rcases ih (x :: acc) l hl c hc with h | h
      · exact Or.inl (List.mem_cons_of_mem _ h)
      · rcases List.mem_cons.mp h with rfl | h
        · exact Or.inl (List.mem_cons_self _ _)
        · exact Or.inr h

/-- A string all of whose lines are non-blank is itself non-blank. -/
theorem isBlank_false_of_lines {s : String}
    (h : ∀ l ∈ jsSplit s '\n', isBlankString l = false) :
    isBlankString s = false := by
  cases hsp : jsSplitChars '\n' s.data [] with
  | nil => exact absurd hsp (jsSplitChars_ne_nil _ _)
  | cons l0 rest =>
    have h0 : isBlankString (String.mk l0) = false := by
      refine h _ ?_
      rw [jsSplit, hsp]
      exact List.mem_map_of_mem _ (List.mem_cons_self _ _)
    rw [isBlankString] at h0 ⊢
    rw [Bool.eq_false_iff] at h0 ⊢
    intro hall
    apply h0
    rw [List.all_eq_true] at hall ⊢
    intro c hc
    rcases jsSplitChars_chars_subset s.data [] l0 (hsp ▸ List.mem_cons_self _ _) c hc with
      hm | hm
    · exact hall c hm
    · exact absurd hm (List.not_mem_nil c)

/-- When all of a transcript's lines are non-blank, the route's
blank-line filter is the identity. -/
theorem transcriptLines_eq_of_no_blank {s : String}
    (h : ∀ l ∈ jsSplit s '\n', isBlankString l = false) :
    transcriptLines s = jsSplit s '\n' := by
  unfold transcriptLines
  refine List.filter_eq_self.mpr ?_
  intro l hl
  rw [h l hl]
  rfl

/-- Value of the fresh-translation tail when the result passes the
blank and Devanagari checks. -/
theorem freshTranslation_success (apiKeyPresent : Bool)
    (localizeText : Nat → String → String → String → ProviderResult)
    (job : Job) (targetLanguage normalizedSource normalizedTarget : String)
    (priorOps : List CacheOp)
    (hne : isBlankString job.transcription = false)
    (hjoined : isBlankString (jsJoin (translatedLines apiKeyPresent localizeText
      normalizedSource normalizedTarget (transcriptLines job.transcription)) '\n') = false)
    (hsafe : ¬ (normalizedTarget = "en" ∧ containsDevanagari
      (jsJoin (translatedLines apiKeyPresent localizeText normalizedSource
        normalizedTarget (transcriptLines job.transcription)) '\n') = true)) :
    freshTranslation apiKeyPresent localizeText job targetLanguage normalizedSource
      normalizedTarget priorOps =
    ⟨.ok targetLanguage (jsJoin (translatedLines apiKeyPresent localizeText
        normalizedSource normalizedTarget (transcriptLines job.transcription)) '\n'),
      priorOps ++ [.put targetLanguage (jsJoin (translatedLines apiKeyPresent localizeText
        normalizedSource normalizedTarget (transcriptLines job.transcription)) '\n')],
      (transcriptLines job.transcription).length,
      sourceLanguageCorrection job⟩ := by
  unfold freshTranslation
  rw [if_neg (by simp [hne])]
  rw [if_neg (by
    have := transcriptLines_ne_nil hne
    simpa [List.length_eq_zero] using this)]
  rw [if_neg (by simp [hjoined])]
  rw [if_neg hsafe]

/-- Value of the route when the mock path, the short circuit and the
raw-key cache lookup all decline. -/
theorem getTranslation_cache_miss (apiKeyPresent : Bool)
    (localizeText : Nat → String → String → String → ProviderResult)
    (job : Job) (targetLanguage : String) (cache : Cache)
    (hstatus : job.status = "completed")
    (hmock : ¬ (normalizeLanguageCode (resolveSourceLanguage job) = "hi" ∧
      normalizeLanguageCode targetLanguage = "en"))
    (hdiff : normalizeLanguageCode targetLanguage ≠
      normalizeLanguageCode (resolveSourceLanguage job))
    (hcache : cacheGet cache targetLanguage = none) :
    getTranslation apiKeyPresent localizeText job targetLanguage cache =
      freshTranslation apiKeyPresent localizeText job targetLanguage
        (normalizeLanguageCode (resolveSourceLanguage job))
        (normalizeLanguageCode targetLanguage) [] := by
  unfold getTranslation
  rw [if_neg (by simp [hstatus])]
  simp only [if_neg hmock, if_neg hdiff, hcache]

/-- `getD` agrees with `getElem` inside the bounds. -/
theorem getD_eq_getElem_of_lt {α : Type} (l : List α) (d : α) {i : Nat}
    (h : i < l.length) : l.getD i d = l[i] := by
  rw [List.getD_eq_getElem?_getD, List.getElem?_eq_getElem h]
  rfl

/-! ## C1 — line- and timestamp-preserving translation -/

/-- C1 counterexample: for a completed one-line Devanagari transcript
requested in English the normalized source (`"hi"`) differs from the
normalized target, yet the route answers the hardcoded three-line mock
translation — not a text with the input's line count. -/
theorem C1_lineCount_counterexample :
    lineCount (Job.transcription
      { transcription := "00:00:00 नमस्ते", sourceLanguage := some "en",
        status := "completed" }) = 1 ∧
    normalizeLanguageCode (resolveSourceLanguage
      { transcription := "00:00:00 नमस्ते", sourceLanguage := some "en",
        status := "completed" }) ≠ normalizeLanguageCode "en" ∧
    (getTranslation true (fun _ _ _ _ => ProviderResult.err)
      { transcription := "00:00:00 नमस्ते", sourceLanguage := some "en",
        status := "completed" } "en" []).response =
      .ok "en" mockHindiToEnglish ∧
    lineCount mockHindiToEnglish = 3 := by
  decide

/-- C1 (amended): outside the hardcoded Hindi-to-English mock path and
the final Devanagari safeguard, a fresh translation of a transcript
whose `N` split lines are all non-blank answers a text of exactly `N`
lines; line `i` of the answer is the per-line translation of input
line `i`, any leading timestamp of input line `i` is kept as its
prefix, and the gathered results are the same for every completion
order of the concurrent per-line provider calls. -/
theorem C1_translation_preserves_lines (apiKeyPresent : Bool)
    (localizeText : Nat → String → String → String → ProviderResult)
    (job : Job) (targetLanguage : String) (cache : Cache) (order : List Nat)
    (hstatus : job.status = "completed")
    (hlines : ∀ l ∈ jsSplit job.transcription '\n', isBlankString l = false)
    (hmock : ¬ (normalizeLanguageCode (resolveSourceLanguage job) = "hi" ∧
      normalizeLanguageCode targetLanguage = "en"))
    (hdiff : normalizeLanguageCode targetLanguage ≠
      normalizeLanguageCode (resolveSourceLanguage job))
    (hcache : cacheGet cache targetLanguage = none)
    (hprov : ∀ i text src tgt t, localizeText i text src tgt = .ok t → '\n' ∉ t.data)
    (hjoined : isBlankString (jsJoin (translatedLines apiKeyPresent localizeText
      (normalizeLanguageCode (resolveSourceLanguage job))
      (normalizeLanguageCode targetLanguage)
      (jsSplit job.transcription '\n')) '\n') = false)
    (hsafe : ¬ (normalizeLanguageCode targetLanguage = "en" ∧ containsDevanagari
      (jsJoin (translatedLines apiKeyPresent localizeText
        (normalizeLanguageCode (resolveSourceLanguage job))
        (normalizeLanguageCode targetLanguage)
        (jsSplit job.transcription '\n')) '\n') = true))
    (horder : ∀ i < (jsSplit job.transcription '\n').length, i ∈ order) :
    (getTranslation apiKeyPresent localizeText job targetLanguage cache).response =
      .ok targetLanguage (jsJoin (translatedLines apiKeyPresent localizeText
        (normalizeLanguageCode (resolveSourceLanguage job))
        (normalizeLanguageCode targetLanguage)
        (jsSplit job.transcription '\n')) '\n') ∧
    lineCount (jsJoin (translatedLines apiKeyPresent localizeText
        (normalizeLanguageCode (resolveSourceLanguage job))
        (normalizeLanguageCode targetLanguage)
        (jsSplit job.transcription '\n')) '\n') =
      (jsSplit job.transcription '\n').length ∧
    jsSplit (jsJoin (translatedLines apiKeyPresent localizeText
        (normalizeLanguageCode (resolveSourceLanguage job))
        (normalizeLanguageCode targetLanguage)
        (jsSplit job.transcription '\n')) '\n') '\n' =
      translatedLines apiKeyPresent localizeText
        (normalizeLanguageCode (resolveSourceLanguage job))
        (normalizeLanguageCode targetLanguage) (jsSplit job.transcription '\n') ∧
    (∀ i, i < (jsSplit job.transcription '\n').length →
      (translatedLines apiKeyPresent localizeText
        (normalizeLanguageCode (resolveSourceLanguage job))
        (normalizeLanguageCode targetLanguage)
        (jsSplit job.transcription '\n')).getD i "" =
      translateLine apiKeyPresent localizeText
        (normalizeLanguageCode (resolveSourceLanguage job))
        (normalizeLanguageCode targetLanguage) i
        ((jsSplit job.transcription '\n').getD i "")) ∧
    (∀ i ts txt, i < (jsSplit job.transcription '\n').length →
      timestampMatch ((jsSplit job.transcription '\n').getD i "") = some (ts, txt) →
      ∃ rest, (translatedLines apiKeyPresent localizeText
        (normalizeLanguageCode (resolveSourceLanguage job))
        (normalizeLanguageCode targetLanguage)
        (jsSplit job.transcription '\n')).getD i "" = ts ++ " " ++ rest) ∧
    gatherResults (fun i => translateLine apiKeyPresent localizeText
        (normalizeLanguageCode (resolveSourceLanguage job))
        (normalizeLanguageCode targetLanguage) i
        ((jsSplit job.transcription '\n').getD i "")) order
        (jsSplit job.transcription '\n').length =
      (translatedLines apiKeyPresent localizeText
        (normalizeLanguageCode (resolveSourceLanguage job))
        (normalizeLanguageCode targetLanguage)
        (jsSplit job.transcription '\n')).map some := by
  have hTL : transcriptLines job.transcription = jsSplit job.transcription '\n' :=
    transcriptLines_eq_of_no_blank hlines
  have hne : isBlankString job.transcription = false := isBlank_false_of_lines hlines
  set nSrc := normalizeLanguageCode (resolveSourceLanguage job) with hnSrc
  set nTgt := normalizeLanguageCode targetLanguage with hnTgt
  set lines := jsSplit job.transcription '\n' with hLines
  set translated := translatedLines apiKeyPresent localizeText nSrc nTgt lines with hTrans
  have hlen : translated.length = lines.length := by
    rw [hTrans]
    unfold translatedLines
    exact List.length_mapIdx
  have hgetD : ∀ i, i < lines.length →
      translated.getD i "" = translateLine apiKeyPresent localizeText nSrc nTgt i
        (lines.getD i "") := by
    intro i hi
    have hi' : i < translated.length := hlen ▸ hi
    rw [getD_eq_getElem_of_lt _ _ hi', getD_eq_getElem_of_lt _ _ hi]
    have h1 := List.get_mapIdx lines
      (translateLine apiKeyPresent localizeText nSrc nTgt) i hi
    rw [List.get_eq_getElem, List.get_eq_getElem] at h1
    exact h1
  have hfree : ∀ p ∈ translated, '\n' ∉ p.data := by
    intro p hp
    rw [hTrans] at hp
    unfold translatedLines at hp
    rw [mapIdx_eq_range_map ""] at hp
    obtain ⟨i, hi, rfl⟩ := List.mem_map.mp hp
    rw [List.mem_range] at hi
    refine translateLine_newline_free apiKeyPresent localizeText nSrc nTgt i _ ?_
      (fun text src tgt t => hprov i text src tgt t)
    have hmem : lines.getD i "" ∈ lines := by
      rw [getD_eq_getElem_of_lt _ _ hi]
      exact List.getElem_mem hi
    have hmem' : lines.getD i "" ∈
        List.map String.mk (jsSplitChars '\n' job.transcription.data []) := hmem
    obtain ⟨cs, hcs, heq⟩ := List.mem_map.mp hmem'
    rw [← heq]
    exact jsSplitChars_sep_free job.transcription.data [] (List.not_mem_nil _) cs hcs
  have htne : translated ≠ [] := by
    intro hnil
    have h0 := hlen
    rw [hnil] at h0
    have : lines ≠ [] := by
      rw [hLines]
      unfold jsSplit
      intro hmap
      exact jsSplitChars_ne_nil job.transcription.data []
        (List.map_eq_nil_iff.mp hmap)
    exact this (List.length_eq_zero.mp h0.symm)
  have hsplitjoin : jsSplit (jsJoin translated '\n') '\n' = translated :=
    jsSplit_jsJoin htne hfree
  have hroute := getTranslation_cache_miss apiKeyPresent localizeText job targetLanguage
    cache hstatus hmock hdiff hcache
  have hfreshval := freshTranslation_success apiKeyPresent localizeText job targetLanguage
    nSrc nTgt [] hne (by rw [hTL]; exact hjoined) (by rw [hTL]; exact hsafe)
  rw [hTL] at hfreshval
  refine ⟨?_, ?_, hsplitjoin, hgetD, ?_, ?_⟩
  · rw [hroute, hfreshval]
  · rw [lineCount, hsplitjoin, hlen]
  · intro i ts txt hi hts
    rw [hgetD i hi]
    unfold translateLine
    rw [hts]
    exact ⟨_, rfl⟩
  · rw [gatherResults_complete _ order lines.length horder, hTrans]
    unfold translatedLines
    rw [mapIdx_eq_range_map "", List.map_map]
    rfl

/-- C1 (amended) at a concrete input: a two-line transcript translated
English-to-Spanish under the reversed completion order `[1, 0]`. -/
theorem C1_translation_preserves_lines_witness :
    (getTranslation true (fun _ _ _ _ => ProviderResult.ok "hola")
      { transcription := "00:00:00 hello\n00:00:05 world", sourceLanguage := some "en",
        status := "completed" } "es" []).response =
      .ok "es" (jsJoin (translatedLines true (fun _ _ _ _ => ProviderResult.ok "hola")
        (normalizeLanguageCode (resolveSourceLanguage
          { transcription := "00:00:00 hello\n00:00:05 world", sourceLanguage := some "en",
            status := "completed" }))
        (normalizeLanguageCode "es")
        (jsSplit "00:00:00 hello\n00:00:05 world" '\n')) '\n') ∧
    lineCount (jsJoin (translatedLines true (fun _ _ _ _ => ProviderResult.ok "hola")
        (normalizeLanguageCode (resolveSourceLanguage
          { transcription := "00:00:00 hello\n00:00:05 world", sourceLanguage := some "en",
            status := "completed" }))
        (normalizeLanguageCode "es")
        (jsSplit "00:00:00 hello\n00:00:05 world" '\n')) '\n') =
      (jsSplit "00:00:00 hello\n00:00:05 world" '\n').length :=
  ⟨(C1_translation_preserves_lines true (fun _ _ _ _ => ProviderResult.ok "hola")
      { transcription := "00:00:00 hello\n00:00:05 world", sourceLanguage := some "en",
        status := "completed" } "es" [] [1, 0] (by decide) (by decide) (by decide)
      (by decide) (by decide)
      (by intro i text src tgt t h; cases h; decide)
      (by decide) (by decide) (by decide)).1,
    (C1_translation_preserves_lines true (fun _ _ _ _ => ProviderResult.ok "hola")
      { transcription := "00:00:00 hello\n00:00:05 world", sourceLanguage := some "en",
        status := "completed" } "es" [] [1, 0] (by decide) (by decide) (by decide)
      (by decide) (by decide)
      (by intro i text src tgt t h; cases h; decide)
      (by decide) (by decide) (by decide)).2.1⟩

/-! ## C2 — cache consultation and self-healing -/

/-- C2 counterexample: for a completed Devanagari transcript requested
in English (normalized source `"hi"` ≠ normalized target `"en"`), a
cached entry that passes the script-validity check is *not* returned:
the mock path answers before the cache is consulted and overwrites the
entry. -/
theorem C2_cache_not_consulted_counterexample :
    containsDevanagari "00:00:00 Hello" = false ∧
    cacheGet [("en", "00:00:00 Hello")] "en" = some "00:00:00 Hello" ∧
    (getTranslation true (fun _ _ _ _ => ProviderResult.err)
      { transcription := "00:00:00 नमस्ते", sourceLanguage := some "en",
        status := "completed" } "en" [("en", "00:00:00 Hello")]).response ≠
      .ok "en" "00:00:00 Hello" ∧
    (getTranslation true (fun _ _ _ _ => ProviderResult.err)
      { transcription := "00:00:00 नमस्ते", sourceLanguage := some "en",
        status := "completed" } "en" [("en", "00:00:00 Hello")]).response =
      .ok "en" mockHindiToEnglish ∧
    applyCacheOps [("en", "00:00:00 Hello")]
      (getTranslation true (fun _ _ _ _ => ProviderResult.err)
        { transcription := "00:00:00 नमस्ते", sourceLanguage := some "en",
          status := "completed" } "en" [("en", "00:00:00 Hello")]).cacheOps =
      [("en", mockHindiToEnglish)] := by
  decide

/-- Any successful fresh-translation response for a target normalizing
to `"en"` is Devanagari-free. -/
theorem freshTranslation_en_script_safe (apiKeyPresent : Bool)
    (localizeText : Nat → String → String → String → ProviderResult)
    (job : Job) (targetLanguage normalizedSource : String) (priorOps : List CacheOp) :
    ∀ lang text,
      (freshTranslation apiKeyPresent localizeText job targetLanguage normalizedSource
        "en" priorOps).response = .ok lang text →
      containsDevanagari text = false := by
  intro lang text h
  unfold freshTranslation at h
  dsimp only at h
  split at h
  · exact absurd h (by simp)
  · split at h
    · exact absurd h (by simp)
    · split at h
      · exact absurd h (by simp)
      · split at h
        · simp only [RouteResponse.ok.injEq] at h
          rw [← h.2]
          decide
        · rename_i hcond
          simp only [RouteResponse.ok.injEq] at h
          rw [← h.2]
          rw [Bool.eq_false_iff]
          intro hdev
          exact hcond ⟨rfl, hdev⟩

/-- Keys of the cache mutations of the fresh-translation tail: the raw
target string, plus whatever the invalidation step already issued. -/
theorem freshTranslation_ops_key (apiKeyPresent : Bool)
    (localizeText : Nat → String → String → String → ProviderResult)
    (job : Job) (targetLanguage normalizedSource normalizedTarget : String)
    (priorOps : List CacheOp)
    (hprior : ∀ op ∈ priorOps, op.key = targetLanguage) :
    ∀ op ∈ (freshTranslation apiKeyPresent localizeText job targetLanguage
      normalizedSource normalizedTarget priorOps).cacheOps, op.key = targetLanguage := by
  intro op hop
  unfold freshTranslation at hop
  dsimp only at hop
  split at hop
  · exact hprior op hop
  · split at hop
    · exact hprior op hop
    · split at hop
      · exact hprior op hop
      · split at hop <;>
          · simp only [List.mem_append, List.mem_singleton] at hop
            rcases hop with hop | hop
            · exact hprior op hop
            · rw [hop]; rfl

/-- C2 (amended): for a completed job with a non-blank transcript and
distinct normalized languages, outside the hardcoded Hindi-to-English
mock path the cache is consulted first — a cached entry passing the
script check is returned as-is with no provider call and no cache
mutation; a cached entry for a target normalizing to `"en"` that
contains Devanagari is deleted and a fresh per-line translation is
computed; and every successful response for such a target is
Devanagari-free. -/
theorem C2_cache_consultation (apiKeyPresent : Bool)
    (localizeText : Nat → String → String → String → ProviderResult)
    (job : Job) (targetLanguage : String) (cache : Cache)
    (hstatus : job.status = "completed")
    (hne : isBlankString job.transcription = false)
    (hmock : ¬ (normalizeLanguageCode (resolveSourceLanguage job) = "hi" ∧
      normalizeLanguageCode targetLanguage = "en"))
    (hdiff : normalizeLanguageCode targetLanguage ≠
      normalizeLanguageCode (resolveSourceLanguage job)) :
    (∀ c, cacheGet cache targetLanguage = some c →
      ¬ (normalizeLanguageCode targetLanguage = "en" ∧ containsDevanagari c = true) →
      (getTranslation apiKeyPresent localizeText job targetLanguage cache).response =
        .ok targetLanguage c ∧
      (getTranslation apiKeyPresent localizeText job targetLanguage cache).cacheOps = [] ∧
      (getTranslation apiKeyPresent localizeText job targetLanguage cache).translateCalls
        = 0) ∧
    (∀ c, cacheGet cache targetLanguage = some c →
      normalizeLanguageCode targetLanguage = "en" → containsDevanagari c = true →
      (getTranslation apiKeyPresent localizeText job targetLanguage
        cache).cacheOps.head? = some (.del targetLanguage) ∧
      (getTranslation apiKeyPresent localizeText job targetLanguage cache).translateCalls
        = (transcriptLines job.transcription).length) ∧
    (∀ lang text,
      (getTranslation apiKeyPresent localizeText job targetLanguage cache).response =
        .ok lang text →
      normalizeLanguageCode targetLanguage = "en" → containsDevanagari text = false) := by
  have hroute : getTranslation apiKeyPresent localizeText job targetLanguage cache =
      match cacheGet cache targetLanguage with
      | some c =>
        if normalizeLanguageCode targetLanguage = "en" ∧ containsDevanagari c = true then
          freshTranslation apiKeyPresent localizeText job targetLanguage
            (normalizeLanguageCode (resolveSourceLanguage job))
            (normalizeLanguageCode targetLanguage) [.del targetLanguage]
        else
          ⟨.ok targetLanguage c, [], 0, sourceLanguageCorrection job⟩
      | none =>
        freshTranslation apiKeyPresent localizeText job targetLanguage
          (normalizeLanguageCode (resolveSourceLanguage job))
          (normalizeLanguageCode targetLanguage) [] := by
    unfold getTranslation
    rw [if_neg (by simp [hstatus])]
    simp only [if_neg hmock, if_neg hdiff]
  have hfresh_calls : ∀ priorOps,
      (freshTranslation apiKeyPresent localizeText job targetLanguage
        (normalizeLanguageCode (resolveSourceLanguage job))
        (normalizeLanguageCode targetLanguage) priorOps).translateCalls =
        (transcriptLines job.transcription).length := by
    intro priorOps
    unfold freshTranslation
    rw [if_neg (by simp [hne])]
    rw [if_neg (by
      have := transcriptLines_ne_nil hne
      simpa [List.length_eq_zero] using this)]
    dsimp only
    split
    · rfl
    · split <;> rfl
  have hfresh_head : ∀ op₀ rest,
      (freshTranslation apiKeyPresent localizeText job targetLanguage
        (normalizeLanguageCode (resolveSourceLanguage job))
        (normalizeLanguageCode targetLanguage) (op₀ :: rest)).cacheOps.head? =
        some op₀ := by
    intro op₀ rest
    unfold freshTranslation
    rw [if_neg (by simp [hne])]
    rw [if_neg (by
      have := transcriptLines_ne_nil hne
      simpa [List.length_eq_zero] using this)]
    dsimp only
    split
    · rfl
    · split <;> rfl
  refine ⟨?_, ?_, ?_⟩
  · intro c hc hvalid
    simp only [hc] at hroute
    rw [hroute, if_neg hvalid]
    exact ⟨rfl, rfl, rfl⟩
  · intro c hc hen hdev
    have hand : normalizeLanguageCode targetLanguage = "en" ∧
        containsDevanagari c = true := ⟨hen, hdev⟩
    simp only [hc] at hroute
    rw [hroute, if_pos hand]
    exact ⟨hfresh_head _ _, hfresh_calls _⟩
  · intro lang text hresp hen
    cases hc : cacheGet cache targetLanguage with
    | some c =>
      simp only [hc] at hroute
      rw [hroute] at hresp
      by_cases hvalid : normalizeLanguageCode targetLanguage = "en" ∧
          containsDevanagari c = true
      · rw [if_pos hvalid] at hresp
        rw [hen] at hresp
        exact freshTranslation_en_script_safe apiKeyPresent localizeText job
          targetLanguage _ _ lang text hresp
      · rw [if_neg hvalid] at hresp
        simp only [RouteResponse.ok.injEq] at hresp
        rw [← hresp.2, Bool.eq_false_iff]
        intro hdev
        exact hvalid ⟨hen, hdev⟩
    | none =>
      simp only [hc] at hroute
      rw [hroute] at hresp
      rw [hen] at hresp
      exact freshTranslation_en_script_safe apiKeyPresent localizeText job
        targetLanguage _ _ lang text hresp

/-- C2 (amended) at a concrete input: a bad Devanagari cache entry for
an English request is deleted first, and the fresh computation covers
every line. -/
theorem C2_cache_consultation_witness :
    (getTranslation true (fun _ _ _ _ => ProviderResult.ok "hello")
      { transcription := "hola mundo", sourceLanguage := some "es",
        status := "completed" } "en" [("en", "नमस्ते")]).cacheOps.head? =
      some (.del "en") ∧
    (getTranslation true (fun _ _ _ _ => ProviderResult.ok "hello")
      { transcription := "hola mundo", sourceLanguage := some "es",
        status := "completed" } "en" [("en", "नमस्ते")]).translateCalls =
      (transcriptLines "hola mundo").length :=
  (C2_cache_consultation true (fun _ _ _ _ => ProviderResult.ok "hello")
    { transcription := "hola mundo", sourceLanguage := some "es", status := "completed" }
    "en" [("en", "नमस्ते")] (by decide) (by decide) (by decide) (by decide)).2.1
    "नमस्ते" (by decide) (by decide) (by decide)

/-! ## C6 — cache keys are the raw target-language string -/

/-- C6 counterexample: the cache is keyed by the raw request string,
not the normalized code: with an entry under `"en"` present, a request
for `"en-US"` (which normalizes to `"en"`) misses the cache, recomputes
and writes a second entry under `"en-US"`. -/
theorem C6_raw_cache_key_counterexample :
    normalizeLanguageCode "en-US" = normalizeLanguageCode "en" ∧
    cacheGet [("en", "X")] "en" = some "X" ∧
    (getTranslation true (fun _ _ _ _ => ProviderResult.ok "hello world")
      { transcription := "hola mundo", sourceLanguage := some "es",
        status := "completed" } "en-US" [("en", "X")]).response =
      .ok "en-US" "hello world" ∧
    (getTranslation true (fun _ _ _ _ => ProviderResult.ok "hello world")
      { transcription := "hola mundo", sourceLanguage := some "es",
        status := "completed" } "en-US" [("en", "X")]).cacheOps =
      [.put "en-US" "hello world"] ∧
    applyCacheOps [("en", "X")]
      (getTranslation true (fun _ _ _ _ => ProviderResult.ok "hello world")
        { transcription := "hola mundo", sourceLanguage := some "es",
          status := "completed" } "en-US" [("en", "X")]).cacheOps =
      [("en", "X"), ("en-US", "hello world")] := by
  decide

/-- C6 (amended): outside the Hindi-to-English mock path (which writes
under the literal key `"en"`), every cache read, write and delete of a
`getTranslation` request uses the raw requested target-language
string, so requests whose targets normalize alike still address
distinct entries. -/
theorem C6_cache_ops_raw_key (apiKeyPresent : Bool)
    (localizeText : Nat → String → String → String → ProviderResult)
    (job : Job) (targetLanguage : String) (cache : Cache)
    (hmock : ¬ (normalizeLanguageCode (resolveSourceLanguage job) = "hi" ∧
      normalizeLanguageCode targetLanguage = "en")) :
    ∀ op ∈ (getTranslation apiKeyPresent localizeText job targetLanguage cache).cacheOps,
      op.key = targetLanguage := by
  intro op hop
  unfold getTranslation at hop
  split at hop
  · exact absurd hop (by simp)
  · rw [if_neg hmock] at hop
    split at hop
    · exact absurd hop (by simp)
    · split at hop
      · rename_i c _
        split at hop
        · exact freshTranslation_ops_key apiKeyPresent localizeText job targetLanguage
            _ _ [.del targetLanguage] (by
              intro o ho
              simp only [List.mem_singleton] at ho
              rw [ho]; rfl) op hop
        · exact absurd hop (by simp)
      · exact freshTranslation_ops_key apiKeyPresent localizeText job targetLanguage
          _ _ [] (by intro o ho; exact absurd ho (List.not_mem_nil o)) op hop

/-- C6 (amended) at a concrete input: the single write of the
`"en-US"` request is keyed `"en-US"`. -/
theorem C6_cache_ops_raw_key_witness :
    CacheOp.key ((getTranslation true (fun _ _ _ _ => ProviderResult.ok "hello world")
      { transcription := "hola mundo", sourceLanguage := some "es",
        status := "completed" } "en-US" [("en", "X")]).cacheOps.getD 0 (.del "en-US")) =
      "en-US" :=
  C6_cache_ops_raw_key true (fun _ _ _ _ => ProviderResult.ok "hello world")
    { transcription := "hola mundo", sourceLanguage := some "es", status := "completed" }
    "en-US" [("en", "X")] (by decide) _ (by decide)

end LingoFlow
